import Mathlib

/-!
Verification of the cc-video-marker renderer (src/main.rs) against its
natural-language specification.  The Rust source is shallowly embedded:
`f64` time values are modelled as exact rationals `ℚ` (the claims about the
time algebra concern control flow, clamping and sign tests, not rounding),
the frame-count cast is modelled on an idealised `f64` carrying NaN and the
infinities, side-effecting `FnOnce(Time)` closures are modelled as explicit
state transformers `Time → σ → σ`, fallible operations return `Except`, and
the fallible library calls (pixel-buffer allocation, rasterization, PNG
saving, process spawn and wait) are oracles recorded in environment
structures.
-/

/-- Embeds `struct Time(f64)` (src/main.rs:36-37): elapsed seconds relative
to the start of the currently active window. -/
structure Time where
  val : ℚ
deriving DecidableEq, Repr

namespace Time

/-- Embeds `Time::wait` (src/main.rs:40-42): `Self(self.0 - t0)`. -/
def wait (s : Time) (t0 : ℚ) : Time :=
  ⟨s.val - t0⟩

/-- Embeds `Time::until` (src/main.rs:44-49).  The Rust closure mutates its
environment; here the environment is an explicit state `st : σ` and the
closure a state transformer `f`.  `if 0.0 <= self.0 { f(Time(self.0.min(dt))); }`
then `*self` is returned. -/
def untilAction (s : Time) (dt : ℚ) {σ : Type} (f : Time → σ → σ) (st : σ) : σ × Time :=
  (if 0 ≤ s.val then f ⟨min s.val dt⟩ st else st, s)

/-- Embeds `Time::during` (src/main.rs:51-56):
`if 0.0 <= self.0 { f(*self); } self.wait(t)`. -/
def during (s : Time) (t : ℚ) {σ : Type} (f : Time → σ → σ) (st : σ) : σ × Time :=
  (if 0 ≤ s.val then f s st else st, s.wait t)

/-- Embeds `Time::until_during` (src/main.rs:58-62):
`self.during(t, |time| { time.until(dt, f); })` (the inner returned Time is
dropped; only the state survives). -/
def until_during (s : Time) (dt t : ℚ) {σ : Type} (f : Time → σ → σ) (st : σ) : σ × Time :=
  s.during t (fun time st2 => (time.untilAction dt f st2).1) st

end Time

/-- Instrumented run of `during`: the state records the argument of every
invocation of the action, so the trace length counts invocations. -/
def duringTrace (x t : ℚ) : List ℚ :=
  (Time.during ⟨x⟩ t (fun tm l => l ++ [tm.val]) []).1

/-- Instrumented run of `until`: the state records the argument of every
invocation of the action. -/
def untilTrace (x dt : ℚ) : List ℚ :=
  (Time.untilAction ⟨x⟩ dt (fun tm l => l ++ [tm.val]) []).1

/-- `u32::MAX`, the saturation bound of Rust's `as u32` cast. -/
def U32_MAX : ℕ := 4294967295

/-- Idealised `f64`: NaN, the two infinities, or a finite value (finite
arithmetic is modelled exactly over `ℚ`; rounding of finite results is not
modelled, the claims under study concern the cast and the special values). -/
inductive F64 where
  | nan
  | inf
  | ninf
  | fin (q : ℚ)
deriving DecidableEq, Repr

namespace F64

/-- IEEE-754 addition on the idealised `f64` (finite part exact). -/
def add : F64 → F64 → F64
  | nan, _ => nan
  | _, nan => nan
  | inf, ninf => nan
  | ninf, inf => nan
  | inf, _ => inf
  | _, inf => inf
  | ninf, _ => ninf
  | _, ninf => ninf
  | fin a, fin b => fin (a + b)

/-- IEEE-754 multiplication on the idealised `f64` (finite part exact). -/
def mul : F64 → F64 → F64
  | nan, _ => nan
  | _, nan => nan
  | inf, inf => inf
  | inf, ninf => ninf
  | ninf, inf => ninf
  | ninf, ninf => inf
  | inf, fin b => if 0 < b then inf else if b < 0 then ninf else nan
  | fin a, inf => if 0 < a then inf else if a < 0 then ninf else nan
  | ninf, fin b => if 0 < b then ninf else if b < 0 then inf else nan
  | fin a, ninf => if 0 < a then ninf else if a < 0 then inf else nan
  | fin a, fin b => fin (a * b)

end F64

/-- Truncation toward zero of a rational (the rounding used by Rust's
float-to-integer `as` casts). -/
def ratTrunc (q : ℚ) : ℤ :=
  if 0 ≤ q then ⌊q⌋ else -⌊-q⌋

/-- Rust's saturating `as u32` cast of an `f64` (Rust reference semantics:
NaN casts to 0, other values are truncated toward zero and clamped to the
range from 0 to `u32::MAX`). -/
def F64.toU32 : F64 → ℕ
  | F64.nan => 0
  | F64.ninf => 0
  | F64.inf => U32_MAX
  | F64.fin q => min (ratTrunc q).toNat U32_MAX

/-- Embeds `let length = delay + sustain + fade + leave` (src/main.rs:247),
evaluated left to right in `f64`. -/
def total_length (delay sustain fadeD leave : F64) : F64 :=
  ((delay.add sustain).add fadeD).add leave

/-- Embeds the frame count handed to `Renderer::new` (src/main.rs:278):
`(length * framerate) as u32`. -/
def frame_length (delay sustain fadeD leave framerate : F64) : ℕ :=
  F64.toU32 ((total_length delay sustain fadeD leave).mul framerate)

/-- Modelled from the spec for the C1 refinement comparison: "total frame
count (derived: `ceil(total_duration_seconds * framerate)`)". -/
def spec_frame_count (delay sustain fadeD leave framerate : ℚ) : ℤ :=
  ⌈(delay + sustain + fadeD + leave) * framerate⌉

/-- Environment of one `Renderer::render` run (src/main.rs:138-165): whether
`Command::spawn` succeeds, whether the OS `wait` call succeeds, and the exit
status code the encoder process reports. -/
structure ProcessEnv where
  spawnOk : Bool
  waitOk : Bool
  exitCode : ℤ
deriving DecidableEq, Repr

/-- Embeds `Renderer::render` (src/main.rs:138-165): builds the ffmpeg
command, `spawn()`s it mapping a launch error to `Err(())`, `wait()`s for it
mapping an OS wait error to `Err(())`, and then returns `Ok(())`.  The
`ExitStatus` value produced by `wait()` is discarded by the source. -/
def render (env : ProcessEnv) : Except Unit Unit :=
  if env.spawnOk then
    if env.waitOk then Except.ok () else Except.error ()
  else Except.error ()

/-- Zero-pads the decimal representation of `n` to a minimum width of six
characters, mirroring the width-six zero-fill format applied to
`frame_time + 1` at src/main.rs:133. -/
def pad6 (n : ℕ) : String :=
  ⟨List.replicate (6 - (toString n).length) '0'⟩ ++ toString n

/-- The path handed to `save_png` (src/main.rs:133): directory `frames`,
the zero-padded decimal of `frame_time + 1`, extension `.png`. -/
def save_path (frame_time : ℕ) : String :=
  "frames/" ++ pad6 (frame_time + 1) ++ ".png"

/-- Embeds `enum FrameError` (src/main.rs:106-110). -/
inductive FrameError where
  | NewPixmap
  | RenderSVG
  | SavePng
deriving DecidableEq, Repr

/-- Environment of a render job (oracles for the fallible library calls in
`Renderer::render_frame`, src/main.rs:122-136): whether `Pixmap::new`
succeeds at the configured resolution, and whether `resvg::render`
resp. `save_png` succeed for a given frame. -/
structure RenderEnv where
  pixmapOk : Bool
  renderOk : ℕ → Bool
  saveOk : ℕ → Bool

/-- Embeds `Renderer::render_frame` (src/main.rs:122-136): build the scene
tree, allocate the pixel buffer (`FrameError::NewPixmap` on failure),
rasterize (`FrameError::RenderSVG` on failure), persist
(`FrameError::SavePng` on failure).  A successful run returns the path
written by `save_png`, making persistence observable. -/
def render_frame (env : RenderEnv) (frame_time : ℕ) : Except FrameError String :=
  if env.pixmapOk then
    if env.renderOk frame_time then
      if env.saveOk frame_time then Except.ok (save_path frame_time)
      else Except.error FrameError.SavePng
    else Except.error FrameError.RenderSVG
  else Except.error FrameError.NewPixmap

/-- Embeds the frame loop of `main` (src/main.rs:288-295) sequentially: a
failing `render_frame` aborts the job — the source's `assert!` panics, and
its message attributes the failure to the frame index, which is the pair
carried by the error here. -/
def renderFrames (env : RenderEnv) : ℕ → Except (ℕ × FrameError) Unit
  | 0 => Except.ok ()
  | n + 1 =>
    match renderFrames env n with
    | Except.error e => Except.error e
    | Except.ok _ =>
      match render_frame env n with
      | Except.error e => Except.error (n, e)
      | Except.ok _ => Except.ok ()

/-- Failure of the overall job: a frame failure with its index, or an
encode failure. -/
inductive JobError where
  | frame (i : ℕ) (e : FrameError)
  | encode
deriving DecidableEq, Repr

/-- Embeds the tail of `main` (src/main.rs:287-299): render every frame in
the range below `n = r.frame_length`; only when all of them succeed is
ffmpeg invoked via `Renderer::render`.  The Bool records whether the
encoder was invoked. -/
def runJob (env : RenderEnv) (n : ℕ) (penv : ProcessEnv) : Bool × Except JobError Unit :=
  match renderFrames env n with
  | Except.error (i, e) => (false, Except.error (JobError.frame i e))
  | Except.ok _ =>
    (true,
      match render penv with
      | Except.ok _ => Except.ok ()
      | Except.error _ => Except.error JobError.encode)

/-- A render environment in which every library call succeeds. -/
def envAllOk : RenderEnv :=
  ⟨true, fun _ => true, fun _ => true⟩

/-- A render environment in which rasterization fails exactly at frame 3. -/
def envFailAt3 : RenderEnv :=
  ⟨true, fun i => i != 3, fun _ => true⟩

/-- Embeds the `scene` closure of `main` (src/main.rs:249-277) over an
abstract document type `Doc` standing for the node data of the template
tree.  The thread-local `LAYOUT` cell is the explicit `shared` argument.
`clone_rc` (src/main.rs:29-34) clones a `usvg::Tree`; in the rctree-era
usvg this code compiles against, `Tree` wraps an `rctree::Node` handle
(an `Rc`), whose derived `Clone` only bumps the reference count and copies
no node data — so the cloned `layout` aliases the thread-local template,
and the leaf closures, which reach nodes of it via `node_by_id` and mutate
them in place, mutate the thread-local data itself.  The cell contents are
therefore the threaded state; the invocation returns the post-chain state
both as the new cell contents and as the produced document (the returned
`layout` is a handle to the same data).  `ccAct` stands for the body of
the first leaf closure (node lookup of cc plus `fade_in` and `slide_in` at
`time.0 / entry`); the other leaf closures are empty in the source. -/
def scene (Doc : Type) (framerate delay interval entry sustain fadeD leave : ℚ)
    (ccAct : Time → Doc → Doc) (shared : Doc) (frame_time : ℕ) : Doc × Doc :=
  let t0 : Time := ⟨(frame_time : ℚ) / framerate⟩
  let p1 := (t0.wait delay).during sustain (fun time st =>
    let q1 := time.until_during entry interval ccAct st
    let q2 := q1.2.until_during entry interval (fun _ s => s) q1.1
    let q3 := q2.2.until_during entry interval (fun _ s => s) q2.1
    (q3.2.untilAction entry (fun _ s => s) q3.1).1) shared
  let p2 := p1.2.until_during fadeD fadeD (fun _ s => s) p1.1
  let _t4 : Time := p2.2.wait leave
  (p2.1, p2.1)

/-- C3: for every `Time(x)`, duration `t` and action `f`: `during(t, f)`
returns `Time(x - t)` (the budget is consumed in both cases); when `0 ≤ x`
it invokes `f` exactly once with the un-clamped `Time(x)`, and when `x < 0`
it never invokes `f` (the trace of invocation arguments is `[x]` resp. `[]`,
and the final state is `f ⟨x⟩ st` resp. `st`). -/
theorem during_spec (σ : Type) (x t : ℚ) (f : Time → σ → σ) (st : σ) :
    (Time.during ⟨x⟩ t f st).2 = ⟨x - t⟩ ∧
    (0 ≤ x → (Time.during ⟨x⟩ t f st).1 = f ⟨x⟩ st) ∧
    (x < 0 → (Time.during ⟨x⟩ t f st).1 = st) ∧
    duringTrace x t = (if 0 ≤ x then [x] else []) := by
  refine ⟨rfl, ?_, ?_, ?_⟩
  · intro hx
    simp [Time.during, hx]
  · intro hx
    simp [Time.during, not_le.mpr hx]
  · by_cases hx : 0 ≤ x
    · simp [duringTrace, Time.during, hx]
    · simp [duringTrace, Time.during, hx]

/-- Witness for C3 at `x = 3`, `t = 1` (active window) and `x = -2`,
`t = 1` (inactive window). -/
theorem during_spec_witness :
    (Time.during ⟨3⟩ 1 (fun tm l => l ++ [tm.val]) ([] : List ℚ)).1 = [(3 : ℚ)] ∧
    (Time.during ⟨3⟩ 1 (fun tm l => l ++ [tm.val]) ([] : List ℚ)).2 = ⟨2⟩ ∧
    (Time.during ⟨-2⟩ 1 (fun tm l => l ++ [tm.val]) ([] : List ℚ)).1 = [] := by
  refine ⟨?_, ?_, ?_⟩
  · have h := (during_spec (List ℚ) 3 1 (fun tm l => l ++ [tm.val]) []).2.1 (by norm_num)
    simpa using h
  · have h := (during_spec (List ℚ) 3 1 (fun tm l => l ++ [tm.val]) []).1
    rw [h]
    norm_num [Time.mk.injEq]
  · exact (during_spec (List ℚ) (-2) 1 (fun tm l => l ++ [tm.val]) []).2.2.1 (by norm_num)

/-- C4: for every `Time(x)` with `0 ≤ x`, duration `dt` and action `f`:
`until(dt, f)` invokes `f` exactly once with `Time(min x dt)` (so for
`dt < x` the observed value is exactly `dt`), consumes nothing, and returns
`Time(x)` unchanged. -/
theorem until_spec (σ : Type) (x dt : ℚ) (f : Time → σ → σ) (st : σ) (hx : 0 ≤ x) :
    Time.untilAction ⟨x⟩ dt f st = (f ⟨min x dt⟩ st, ⟨x⟩) ∧
    untilTrace x dt = [min x dt] ∧
    (dt < x → untilTrace x dt = [dt]) := by
  refine ⟨?_, ?_, ?_⟩
  · simp [Time.untilAction, hx]
  · simp [untilTrace, Time.untilAction, hx]
  · intro hlt
    simp [untilTrace, Time.untilAction, hx, min_eq_right (le_of_lt hlt)]

/-- Witness for C4 at `x = 5`, `dt = 2` (clamped to `dt`). -/
theorem until_spec_witness :
    (0 : ℚ) ≤ 5 ∧
    Time.untilAction ⟨(5 : ℚ)⟩ 2 (fun tm l => l ++ [tm.val]) ([] : List ℚ)
      = ([(2 : ℚ)], ⟨5⟩) ∧
    untilTrace 5 2 = [2] := by
  refine ⟨by norm_num, ?_, ?_⟩
  · have h := (until_spec (List ℚ) 5 2 (fun tm l => l ++ [tm.val]) [] (by norm_num)).1
    simpa using h
  · exact (until_spec (List ℚ) 5 2 (fun tm l => l ++ [tm.val]) [] (by norm_num)).2.2
      (by norm_num)

/-- C5 counterexample: the claim says `until(dt, f)` does not invoke `f`
whenever `x ≤ 0`, but the guard in the source is `0.0 <= self.0`, which is
true at `x = 0`: with `x = 0 ≤ 0` and `dt = 1` the action is invoked (once,
with argument `0`). -/
theorem until_zero_invokes :
    (0 : ℚ) ≤ 0 ∧ untilTrace 0 1 = [0] ∧ untilTrace 0 1 ≠ [] := by
  refine ⟨le_refl 0, ?_, ?_⟩ <;> simp [untilTrace, Time.untilAction]

/-- C5 (amended): for every `Time(x)` with `x < 0` (strictly negative) and
every duration `dt` and action `f`, `until(dt, f)` does not invoke `f`: the
state is returned untouched and the invocation trace is empty. -/
theorem until_neg_spec (σ : Type) (x dt : ℚ) (f : Time → σ → σ) (st : σ) (hx : x < 0) :
    Time.untilAction ⟨x⟩ dt f st = (st, ⟨x⟩) ∧ untilTrace x dt = [] := by
  constructor
  · simp [Time.untilAction, not_le.mpr hx]
  · simp [untilTrace, Time.untilAction, not_le.mpr hx]

/-- Witness for the amended C5 at `x = -1`, `dt = 4`. -/
theorem until_neg_spec_witness :
    (-1 : ℚ) < 0 ∧ untilTrace (-1) 4 = [] := by
  exact ⟨by norm_num, (until_neg_spec (List ℚ) (-1) 4 (fun tm l => l ++ [tm.val]) []
    (by norm_num)).2⟩

/-- C1 counterexample: with delay 1/4 s, the other durations 0 and
framerate 2 fps (all exactly representable in `f64`, all arithmetic exact),
the code computes `(0.25 * 2) as u32 = 0` frames while the spec's formula
gives `ceil(0.5) = 1`. -/
theorem frame_length_ne_ceil :
    frame_length (F64.fin (1/4)) (F64.fin 0) (F64.fin 0) (F64.fin 0) (F64.fin 2) = 0 ∧
    spec_frame_count (1/4) 0 0 0 2 = 1 ∧
    (0 : ℤ) ≠ 1 := by
  have h0 : (⌊((1:ℚ)/2)⌋ : ℤ) = 0 := by
    rw [Int.floor_eq_iff]
    norm_num
  refine ⟨?_, ?_, by norm_num⟩
  · have hprod : (total_length (F64.fin (1/4)) (F64.fin 0) (F64.fin 0) (F64.fin 0)).mul
        (F64.fin 2) = F64.fin (1/2) := by
      simp only [total_length, F64.add, F64.mul, F64.fin.injEq]
      norm_num
    simp only [frame_length, hprod, F64.toU32, ratTrunc]
    rw [if_pos (by norm_num : (0:ℚ) ≤ 1/2), h0]
    simp
  · have h : (1/4 + 0 + 0 + 0 : ℚ) * 2 = 1/2 := by norm_num
    simp only [spec_frame_count, h]
    rw [Int.ceil_eq_iff]
    norm_num

/-- C1 (amended): for finite non-negative phase durations and framerate the
frame count passed to the Renderer is the **floor** (truncation toward
zero) of `(delay + sustain + fade + leave) * framerate`, saturated at
`u32::MAX` — not the ceiling. -/
theorem frame_length_eq_floor (d s fd l fr : ℚ)
    (hd : 0 ≤ d) (hs : 0 ≤ s) (hfd : 0 ≤ fd) (hl : 0 ≤ l) (hfr : 0 ≤ fr) :
    frame_length (F64.fin d) (F64.fin s) (F64.fin fd) (F64.fin l) (F64.fin fr)
      = min (⌊(d + s + fd + l) * fr⌋).toNat U32_MAX := by
  have hq : 0 ≤ (d + s + fd + l) * fr := by positivity
  show F64.toU32 (F64.fin ((d + s + fd + l) * fr)) = _
  simp [F64.toU32, ratTrunc, if_pos hq]

/-- Witness for the amended C1 at delay 1/4 s, framerate 2 fps:
`floor(0.5) = 0` frames. -/
theorem frame_length_eq_floor_witness :
    frame_length (F64.fin (1/4)) (F64.fin 0) (F64.fin 0) (F64.fin 0) (F64.fin 2)
      = min (⌊((1/4 + 0 + 0 + 0) * 2 : ℚ)⌋).toNat U32_MAX := by
  exact frame_length_eq_floor (1/4) 0 0 0 2 (by norm_num) (by norm_num) (by norm_num)
    (by norm_num) (by norm_num)

/-- The saturating cast never exceeds `u32::MAX`. -/
theorem toU32_le_max (x : F64) : F64.toU32 x ≤ U32_MAX := by
  cases x with
  | nan => exact Nat.zero_le _
  | inf => exact le_refl _
  | ninf => exact Nat.zero_le _
  | fin q => exact min_le_right _ _

/-- C10: deriving the frame count is total — the cast of
`(delay + sustain + fade + leave) * framerate` is always a `Nat` at most
`u32::MAX` (no panic) — and follows the Rust `as` semantics: a NaN or
negative (including `-inf`) product yields 0 frames, a finite product is
truncated toward zero, and a product at `+inf` or above `u32::MAX`
saturates at `u32::MAX`. -/
theorem frame_length_cast_total (delay sustain fadeD leave framerate : F64) :
    frame_length delay sustain fadeD leave framerate ≤ U32_MAX ∧
    ((total_length delay sustain fadeD leave).mul framerate = F64.nan →
      frame_length delay sustain fadeD leave framerate = 0) ∧
    ((total_length delay sustain fadeD leave).mul framerate = F64.ninf →
      frame_length delay sustain fadeD leave framerate = 0) ∧
    ((total_length delay sustain fadeD leave).mul framerate = F64.inf →
      frame_length delay sustain fadeD leave framerate = U32_MAX) ∧
    (∀ q : ℚ, (total_length delay sustain fadeD leave).mul framerate = F64.fin q →
      (frame_length delay sustain fadeD leave framerate = min (ratTrunc q).toNat U32_MAX ∧
       (q < 0 → frame_length delay sustain fadeD leave framerate = 0) ∧
       ((U32_MAX : ℚ) < q →
         frame_length delay sustain fadeD leave framerate = U32_MAX))) := by
  refine ⟨toU32_le_max _, ?_, ?_, ?_, ?_⟩
  · intro h
    simp only [frame_length, h, F64.toU32]
  · intro h
    simp only [frame_length, h, F64.toU32]
  · intro h
    simp only [frame_length, h, F64.toU32]
  · intro q h
    refine ⟨by simp only [frame_length, h, F64.toU32], ?_, ?_⟩
    · intro hq
      have ht : ratTrunc q = -⌊-q⌋ := if_neg (not_le.mpr hq)
      have hfl : (0 : ℤ) ≤ ⌊-q⌋ := by
        rw [Int.le_floor]
        push_cast
        linarith
      have hz : (ratTrunc q).toNat = 0 := by
        rw [ht]
        exact Int.toNat_of_nonpos (by linarith)
      simp only [frame_length, h, F64.toU32, hz, Nat.zero_min]
    · intro hq
      have hq0 : (0 : ℚ) ≤ q := le_of_lt (lt_of_le_of_lt (by positivity) hq)
      have ht : ratTrunc q = ⌊q⌋ := if_pos hq0
      have hfl : (U32_MAX : ℤ) ≤ ⌊q⌋ := by
        rw [Int.le_floor]
        exact_mod_cast le_of_lt hq
      have hmax : U32_MAX ≤ (ratTrunc q).toNat := by
        rw [ht]
        exact_mod_cast Int.toNat_le_toNat hfl
      simp only [frame_length, h, F64.toU32]
      exact min_eq_right hmax

/-- Witness for C10: a NaN ingredient yields 0 frames, and a negative
finite product (delay −1 s at 2 fps) also yields 0 frames. -/
theorem frame_length_cast_total_witness :
    frame_length F64.nan (F64.fin 0) (F64.fin 0) (F64.fin 0) (F64.fin 2) = 0 ∧
    frame_length (F64.fin (-1)) (F64.fin 0) (F64.fin 0) (F64.fin 0) (F64.fin 2) = 0 := by
  constructor
  · exact (frame_length_cast_total F64.nan (F64.fin 0) (F64.fin 0) (F64.fin 0)
      (F64.fin 2)).2.1 rfl
  · refine (((frame_length_cast_total (F64.fin (-1)) (F64.fin 0) (F64.fin 0) (F64.fin 0)
      (F64.fin 2)).2.2.2.2 (-2) ?_).2.1 (by norm_num))
    simp only [total_length, F64.add, F64.mul, F64.fin.injEq]
    norm_num

/-- C2 counterexample: a run in which ffmpeg launches, is waited for
successfully, and exits with status 1 (non-zero) still makes `render`
return success — the claimed "failure iff launch failure or non-zero exit"
is false, because the exit status is never inspected. -/
theorem render_ok_on_nonzero_exit :
    render ⟨true, true, 1⟩ = Except.ok () ∧ (1 : ℤ) ≠ 0 := by
  exact ⟨rfl, by norm_num⟩

/-- C2 (amended): `render` waits on the spawned process and reports encode
failure exactly when the process fails to launch or the OS wait on it
fails; the process exit status is discarded, so a clean non-zero exit still
reports success, whatever the exit code. -/
theorem render_err_iff (env : ProcessEnv) :
    (render env = Except.error () ↔ (env.spawnOk = false ∨ env.waitOk = false)) ∧
    (env.spawnOk = true → env.waitOk = true → render env = Except.ok ()) := by
  constructor
  · cases h1 : env.spawnOk <;> cases h2 : env.waitOk <;> simp [render, h1, h2]
  · intro h1 h2
    simp [render, h1, h2]

/-- Witness for the amended C2: with a successful spawn and wait the result
is success even at exit code 7. -/
theorem render_err_iff_witness :
    render ⟨true, true, 7⟩ = Except.ok () :=
  (render_err_iff ⟨true, true, 7⟩).2 rfl rfl

/-- Unfolding of the successor step of the frame loop. -/
theorem renderFrames_succ (env : RenderEnv) (n : ℕ) :
    renderFrames env (n + 1) =
      match renderFrames env n with
      | Except.error e => Except.error e
      | Except.ok _ =>
        match render_frame env n with
        | Except.error e => Except.error (n, e)
        | Except.ok _ => Except.ok () := rfl

/-- If the whole loop succeeded, every frame below `n` rendered
successfully. -/
theorem renderFrames_all_of_ok (env : RenderEnv) :
    ∀ n, renderFrames env n = Except.ok () →
      ∀ i, i < n → ∃ s, render_frame env i = Except.ok s := by
  intro n
  induction n with
  | zero =>
    intro _ i hi
    exact absurd hi (Nat.not_lt_zero i)
  | succ n ih =>
    intro h i hi
    rw [renderFrames_succ] at h
    cases hr : renderFrames env n with
    | error e =>
      rw [hr] at h
      simp at h
    | ok u =>
      rw [hr] at h
      cases hf : render_frame env n with
      | error e =>
        rw [hf] at h
        simp at h
      | ok s =>
        rcases Nat.lt_succ_iff_lt_or_eq.mp hi with hlt | heq
        · cases u
          exact ih hr i hlt
        · exact ⟨s, heq ▸ hf⟩

/-- If every frame below `n` renders successfully, the loop succeeds. -/
theorem renderFrames_ok_of_all (env : RenderEnv) :
    ∀ n, (∀ i, i < n → ∃ s, render_frame env i = Except.ok s) →
      renderFrames env n = Except.ok () := by
  intro n
  induction n with
  | zero =>
    intro _
    rfl
  | succ n ih =>
    intro h
    rw [renderFrames_succ]
    rw [ih (fun i hi => h i (Nat.lt_succ_of_lt hi))]
    obtain ⟨s, hs⟩ := h n (Nat.lt_succ_self n)
    rw [hs]

/-- A loop failure carries the index of a frame in range whose rendering
failed with exactly that error. -/
theorem renderFrames_error_inv (env : RenderEnv) :
    ∀ n i e, renderFrames env n = Except.error (i, e) →
      i < n ∧ render_frame env i = Except.error e := by
  intro n
  induction n with
  | zero =>
    intro i e h
    simp [renderFrames] at h
  | succ n ih =>
    intro i e h
    rw [renderFrames_succ] at h
    cases hr : renderFrames env n with
    | error p =>
      rw [hr] at h
      injection h with h1
      rw [h1] at hr
      obtain ⟨hlt, hfr⟩ := ih i e hr
      exact ⟨Nat.lt_succ_of_lt hlt, hfr⟩
    | ok u =>
      rw [hr] at h
      cases hf : render_frame env n with
      | error e2 =>
        rw [hf] at h
        injection h with h1
        injection h1 with hn he
        subst hn
        subst he
        exact ⟨Nat.lt_succ_self n, hf⟩
      | ok s =>
        rw [hf] at h
        simp at h

/-- C6: if any frame in range fails to render, the job reports failure and
the encoder is never invoked; conversely, the encoder is invoked only when
every frame in the range rendered successfully. -/
theorem job_aborts_on_frame_failure (env : RenderEnv) (n : ℕ) (penv : ProcessEnv) :
    ((∃ i e, i < n ∧ render_frame env i = Except.error e) →
      (runJob env n penv).1 = false ∧
      ∀ u, (runJob env n penv).2 ≠ Except.ok u) ∧
    ((runJob env n penv).1 = true →
      ∀ i, i < n → ∃ s, render_frame env i = Except.ok s) := by
  constructor
  · rintro ⟨i, e, hi, he⟩
    cases hres : renderFrames env n with
    | ok u =>
      cases u
      obtain ⟨s, hs⟩ := renderFrames_all_of_ok env n hres i hi
      rw [he] at hs
      cases hs
    | error p =>
      obtain ⟨pi, pe⟩ := p
      constructor
      · simp [runJob, hres]
      · intro u
        simp [runJob, hres]
  · intro h1 i hi
    cases hres : renderFrames env n with
    | error p =>
      obtain ⟨pi, pe⟩ := p
      exfalso
      simp [runJob, hres] at h1
    | ok u =>
      cases u
      exact renderFrames_all_of_ok env n hres i hi

/-- Witness for C6: with rasterization failing at frame 3 of 10 frames, the
job fails and the encoder is not invoked. -/
theorem job_aborts_on_frame_failure_witness :
    (runJob envFailAt3 10 ⟨true, true, 0⟩).1 = false ∧
    ∀ u, (runJob envFailAt3 10 ⟨true, true, 0⟩).2 ≠ Except.ok u := by
  refine (job_aborts_on_frame_failure envFailAt3 10 ⟨true, true, 0⟩).1
    ⟨3, FrameError.RenderSVG, ?_, ?_⟩
  · norm_num
  · rfl

/-- C7 counterexample: the failure value returned to the caller carries no
frame index — `FrameError` has no index field — so two distinct frame
indices report the identical failure value when pixel-buffer allocation
fails; the returned outcome is not tagged with (and cannot determine) the
originating index. -/
theorem render_frame_error_untagged :
    render_frame ⟨false, fun _ => true, fun _ => true⟩ 0
      = render_frame ⟨false, fun _ => true, fun _ => true⟩ 1 ∧
    (0 : ℕ) ≠ 1 := by
  exact ⟨rfl, by norm_num⟩

/-- C7 (amended): `render_frame` either succeeds or reports exactly one of
the three failures — `NewPixmap` exactly when the pixel buffer cannot be
created, `RenderSVG` exactly when drawing the document fails, `SavePng`
exactly on I/O error — but the returned error value itself carries no frame
index: the index is attached one layer up, where a pipeline failure pairs a
failing in-range index with that frame's error. -/
theorem render_frame_taxonomy (env : RenderEnv) (i : ℕ) :
    (render_frame env i = Except.error FrameError.NewPixmap ↔ env.pixmapOk = false) ∧
    (render_frame env i = Except.error FrameError.RenderSVG ↔
      env.pixmapOk = true ∧ env.renderOk i = false) ∧
    (render_frame env i = Except.error FrameError.SavePng ↔
      env.pixmapOk = true ∧ env.renderOk i = true ∧ env.saveOk i = false) ∧
    ((∃ s, render_frame env i = Except.ok s) ↔
      env.pixmapOk = true ∧ env.renderOk i = true ∧ env.saveOk i = true) ∧
    (∀ n j e, renderFrames env n = Except.error (j, e) →
      j < n ∧ render_frame env j = Except.error e) := by
  refine ⟨?_, ?_, ?_, ?_, fun n j e h => renderFrames_error_inv env n j e h⟩ <;>
    cases h1 : env.pixmapOk <;> cases h2 : env.renderOk i <;> cases h3 : env.saveOk i <;>
      simp [render_frame, h1, h2, h3]

/-- Witness for the amended C7: a one-frame pipeline over a failing
allocator reports the failure tagged with frame index 0. -/
theorem render_frame_taxonomy_witness :
    (0 : ℕ) < 1 ∧
    render_frame ⟨false, fun _ => true, fun _ => true⟩ 0
      = Except.error FrameError.NewPixmap := by
  exact (render_frame_taxonomy ⟨false, fun _ => true, fun _ => true⟩ 0).2.2.2.2 1 0
    FrameError.NewPixmap rfl

/-- C9: a successful `render_frame i` persists the frame at the path built
from the decimal of `i + 1` zero-padded to a minimum width of six digits,
inside the `frames` directory with extension `.png`; frame 0 is written to
`frames/000001.png`, matching the 1-based sequential pattern the encoder is
pointed at. -/
theorem render_frame_persists_padded (env : RenderEnv) (i : ℕ) (s : String)
    (h : render_frame env i = Except.ok s) :
    s = "frames/" ++ pad6 (i + 1) ++ ".png" ∧
    (pad6 (i + 1)).length = max 6 (toString (i + 1)).length ∧
    save_path 0 = "frames/000001.png" := by
  refine ⟨?_, ?_, ?_⟩
  · by_cases h1 : env.pixmapOk
    · by_cases h2 : env.renderOk i
      · by_cases h3 : env.saveOk i
        · simp only [render_frame, if_pos h1, if_pos h2, if_pos h3] at h
          injection h with h4
          exact h4.symm
        · simp only [render_frame, if_pos h1, if_pos h2, if_neg h3] at h
          cases h
      · simp only [render_frame, if_pos h1, if_neg h2] at h
        cases h
    · simp only [render_frame, if_neg h1] at h
      cases h
  · rw [pad6, String.length_append, String.length_mk, List.length_replicate]
    omega
  · rfl

/-- Witness for C9 at frame 0 with every library call succeeding. -/
theorem render_frame_persists_padded_witness :
    render_frame envAllOk 0 = Except.ok (save_path 0) ∧
    save_path 0 = "frames/" ++ pad6 (0 + 1) ++ ".png" := by
  refine ⟨rfl, ?_⟩
  exact (render_frame_persists_padded envAllOk 0 (save_path 0) rfl).1

/-- C8 counterexample: the per-invocation `Tree::clone` is an rctree
reference-count bump, not a deep copy, so an invocation whose cc window is
active mutates the worker's thread-local template in place.  Concretely
(framerate 1, delay 0, the remaining durations 1, mutator `n + 1` on a
numeric document): invoking `scene` at frame 0 from the freshly loaded
template 0 leaves the cell at 1, not 0 — the shared instance IS mutated —
and a second invocation with the same frame index 0 (the same worker again,
or equally a worker whose history left its cell at that state, versus a
fresh worker) produces document 2 where the first produced 1: not
bit-identical. -/
theorem scene_mutates_template :
    (scene ℕ 1 0 1 1 1 1 1 (fun _ n => n + 1) 0 0).1 = 1 ∧ (1 : ℕ) ≠ 0 ∧
    (scene ℕ 1 0 1 1 1 1 1 (fun _ n => n + 1)
        ((scene ℕ 1 0 1 1 1 1 1 (fun _ n => n + 1) 0 0).1) 0).2 = 2 ∧
    (scene ℕ 1 0 1 1 1 1 1 (fun _ n => n + 1) 0 0).2 = 1 ∧ (2 : ℕ) ≠ 1 := by
  refine ⟨?_, by norm_num, ?_, ?_, by norm_num⟩ <;>
    · simp only [scene, Time.until_during, Time.during, Time.untilAction, Time.wait]
      norm_num

/-- C8 (amended): `scene` has no mutable state shared **across** workers
and is a deterministic function of the worker's thread-local template
state and the frame index — but it does not operate on an independent
clone: the rctree clone aliases the thread-local template, so the
invocation mutates the worker's template in place.  Precisely: the
post-invocation cell state equals the produced document; a frame before
the delay window returns the current template untouched; a frame inside
the sustain window applies the cc mutator to the template at the clamped
local time (and the result persists in the cell).  Two invocations with
the same frame index are bit-identical exactly when the workers' template
states coincide — e.g. both freshly loaded — not unconditionally. -/
theorem scene_aliasing_spec (Doc : Type)
    (framerate delay interval entry sustain fadeD leave : ℚ)
    (ccAct : Time → Doc → Doc) (shared : Doc) (frame_time : ℕ) :
    (scene Doc framerate delay interval entry sustain fadeD leave ccAct shared
        frame_time).1
      = (scene Doc framerate delay interval entry sustain fadeD leave ccAct shared
          frame_time).2 ∧
    ((frame_time : ℚ) / framerate - delay < 0 →
      scene Doc framerate delay interval entry sustain fadeD leave ccAct shared frame_time
        = (shared, shared)) ∧
    (0 ≤ (frame_time : ℚ) / framerate - delay →
      (scene Doc framerate delay interval entry sustain fadeD leave ccAct shared
          frame_time).2
        = ccAct ⟨min ((frame_time : ℚ) / framerate - delay) entry⟩ shared) := by
  refine ⟨rfl, ?_, ?_⟩
  · intro h
    simp only [scene, Time.until_during, Time.during, Time.untilAction, Time.wait]
    split_ifs <;> first | rfl | (exfalso; linarith)
  · intro h
    simp only [scene, Time.until_during, Time.during, Time.untilAction, Time.wait]
    split_ifs <;> rfl

/-- Witness for the amended C8: frame 1 at 1 fps with a 2 s delay leaves
template 5 untouched; frame 0 with no delay returns the mutated
template. -/
theorem scene_aliasing_spec_witness :
    (((1 : ℕ) : ℚ) / 1 - 2 < 0 ∧
      scene ℕ 1 2 1 1 1 1 1 (fun _ n => n + 1) 5 1 = (5, 5)) ∧
    ((0 : ℚ) ≤ ((0 : ℕ) : ℚ) / 1 - 0 ∧
      (scene ℕ 1 0 1 1 1 1 1 (fun _ n => n + 1) 0 0).2 = 1) := by
  constructor
  · exact ⟨by norm_num,
      (scene_aliasing_spec ℕ 1 2 1 1 1 1 1 (fun _ n => n + 1) 5 1).2.1 (by norm_num)⟩
  · have h := (scene_aliasing_spec ℕ 1 0 1 1 1 1 1 (fun _ n => n + 1) 0 0).2.2
      (by norm_num)
    exact ⟨by norm_num, by rw [h]⟩
